import Mathlib

/-!
Shallow embedding of `src/python/dv_transaction_trace/impl/perfetto_impl.py`
(together with the enums of `src/python/dv_transaction_trace/api.py`).

Modelling conventions:
* Python objects (`PerfettoTrace`, `PerfettoStream`, `PerfettoTransaction`)
  become records; object identity becomes an index into an arena held by the
  trace state (`TraceState.streams`, `TraceState.txns`), and mutation becomes
  explicit state passing.
* The output file is modelled by the list `TraceState.packets` of emitted
  trace packets, in emission order; the protobuf byte serialization of a
  packet is out of scope except for the varint primitive `write_varint`,
  which is modelled on byte lists.
* Python `bytes` values are `List Nat` with every element `< 256`;
  Python `str` is Lean `String` (slicing a string is `List.take` on its
  characters); Python `int` is `Int` for timestamps and `Nat` for the
  non-negative identifier counters and byte values.
* A Python `raise` is modelled with `Except`: `begin_transaction` returns
  the error (and the state as mutated up to the raise), matching the only
  raising operation the claims touch.
-/

namespace DVTT

/-- Radix enum from `api.py`. -/
inductive Radix
  | BIN
  | OCT
  | DEC
  | HEX
  | UNSIGNED
  | STRING
  | TIME
  | REAL
deriving DecidableEq, Repr

/-- LinkType enum from `api.py`. -/
inductive LinkType
  | PARENT_CHILD
  | RELATED
  | CAUSE_EFFECT
  | CUSTOM
deriving DecidableEq, Repr

/-- The one value field a `pb.DebugAnnotation` record carries in this code
(`int_value`, `uint_value`, `double_value` is unused by the claims, or
`string_value`). -/
inductive AnnotValue
  | int_value (v : Int)
  | uint_value (v : Nat)
  | string_value (s : String)
deriving DecidableEq, Repr

/-- A `pb.DebugAnnotation` as this code populates it: a name plus one value. -/
structure DebugAnnot where
  name : String
  value : AnnotValue
deriving DecidableEq, Repr

/-- The four packet kinds `PerfettoTrace` emits, with exactly the fields the
source sets on them. -/
inductive Packet
  | clock_snapshot (timestamp : Int) (clock_id : Nat) (clock_ts : Int)
  | track_descriptor (timestamp : Int) (uuid : Nat) (name : String)
      (parent_uuid : Option Nat)
  | slice_begin (timestamp : Int) (track_uuid : Nat) (name : String)
      (categories : List String) (annots : List DebugAnnot) (flow_ids : List Nat)
  | slice_end (timestamp : Int) (track_uuid : Nat) (flow_ids : List Nat)
deriving DecidableEq, Repr

/-- State of one `PerfettoTransaction` object (its `_`-fields). `parent` and
`stream_idx` are arena indices. -/
structure Transaction where
  id : Nat
  stream_idx : Nat
  name : String
  type_name : Option String
  start_time : Int
  end_time : Int
  is_open : Bool
  parent : Option Nat
  track_uuid : Nat
  attributes : List DebugAnnot
  flow_ids : List Nat
deriving DecidableEq, Repr

/-- State of one `PerfettoStream` object; `transactions` holds arena indices
into `TraceState.txns`, in creation order. -/
structure Stream where
  track_uuid : Nat
  name : String
  scope : Option String
  type_name : Option String
  is_open : Bool
  transactions : List Nat
deriving DecidableEq, Repr

/-- State of one `PerfettoTrace` object plus the arena of all objects it owns
and the packets written to its output file so far. -/
structure TraceState where
  filename : String
  name : String
  time_units : String
  streams : List Stream
  txns : List Transaction
  next_track_uuid : Nat
  next_transaction_id : Nat
  next_flow_id : Nat
  sequence_id : Nat
  clock_id : Nat
  packets : List Packet
deriving DecidableEq, Repr

/-- Append one packet to the output (`PerfettoTrace._write_packet`, with the
byte serialization abstracted). -/
def TraceState.emit (s : TraceState) (p : Packet) : TraceState :=
  { s with packets := s.packets ++ [p] }

/-- Replace the transaction at arena index `i` (Python mutation of the
object). -/
def TraceState.setTxn (s : TraceState) (i : Nat) (t : Transaction) : TraceState :=
  { s with txns := s.txns.set i t }

/-- Replace the stream at arena index `i`. -/
def TraceState.setStream (s : TraceState) (i : Nat) (st : Stream) : TraceState :=
  { s with streams := s.streams.set i st }

/-- `PerfettoTrace.__init__`: counters start at 1, clock id is 64, and the
initial clock-snapshot packet is emitted. -/
def PerfettoTrace.init (filename name time_units : String) : TraceState :=
  { filename := filename
    name := name
    time_units := time_units
    streams := []
    txns := []
    next_track_uuid := 1
    next_transaction_id := 1
    next_flow_id := 1
    sequence_id := 1
    clock_id := 64
    packets := [Packet.clock_snapshot 0 64 0] }

/-- `PerfettoTrace._allocate_track_uuid`. -/
def allocate_track_uuid (s : TraceState) : Nat × TraceState :=
  (s.next_track_uuid, { s with next_track_uuid := s.next_track_uuid + 1 })

/-- `PerfettoTrace._allocate_transaction_id`. -/
def allocate_transaction_id (s : TraceState) : Nat × TraceState :=
  (s.next_transaction_id, { s with next_transaction_id := s.next_transaction_id + 1 })

/-- `PerfettoTrace._allocate_flow_id`. -/
def allocate_flow_id (s : TraceState) : Nat × TraceState :=
  (s.next_flow_id, { s with next_flow_id := s.next_flow_id + 1 })

/-- `PerfettoTrace._write_varint`: 7 bits per byte, low-order first, high bit
set on all bytes but the last (`value & 0x7F` is `value % 0x80`,
`value >>= 7` is `value / 0x80`). -/
def write_varint (value : Nat) : List Nat :=
  if h : 0x80 ≤ value then
    (value % 0x80 + 0x80) :: write_varint (value / 0x80)
  else
    [value % 0x80]
termination_by value
decreasing_by
  exact Nat.div_lt_self (Nat.lt_of_lt_of_le (by norm_num) h) (by norm_num)

/-- A standard unsigned-varint decoder: take 7 low bits from each byte,
little-endian, stopping at the first byte with the high bit clear. -/
def read_varint : List Nat → Nat
  | [] => 0
  | b :: rest => if b < 0x80 then b else b % 0x80 + 0x80 * read_varint rest

/-- Binary digits of `n`, most significant first (`[]` for 0); the digit part
of Python `bin(n)` for positive `n`. -/
def natToBinChars (n : Nat) : List Char :=
  if h : n = 0 then []
  else natToBinChars (n / 2) ++ [if n % 2 = 1 then '1' else '0']
termination_by n
decreasing_by
  exact Nat.div_lt_self (Nat.pos_of_ne_zero h) (by norm_num)

/-- Python `format(b, '08b')`: binary rendering left-padded with `'0'` to a
minimum width of 8. -/
def format08b (b : Nat) : List Char :=
  let s := if b = 0 then ['0'] else natToBinChars b
  List.replicate (8 - s.length) '0' ++ s

/-- Octal digits of `n`, most significant first (`[]` for 0). -/
def natToOctChars (n : Nat) : List Char :=
  if h : n = 0 then []
  else natToOctChars (n / 8) ++ [Nat.digitChar (n % 8)]
termination_by n
decreasing_by
  exact Nat.div_lt_self (Nat.pos_of_ne_zero h) (by norm_num)

/-- Python `oct(v)[2:]`. -/
def octString (v : Nat) : String :=
  if v = 0 then "0" else String.mk (natToOctChars v)

/-- Python `bytes.hex()`: two lowercase hex digits per byte, in order. -/
def bytesHex (bs : List Nat) : String :=
  String.mk ((bs.map (fun b => [Nat.digitChar (b / 16 % 16), Nat.digitChar (b % 16)])).flatten)

/-- Python `int.from_bytes(bs, 'little')`. -/
def fromBytesLE : List Nat → Nat
  | [] => 0
  | b :: rest => b + 256 * fromBytesLE rest

/-- `PerfettoTransaction._bits_to_string`. The BIN branch builds
`"0b"` followed by `format(byte, '08b')` for each byte of `reversed(bits)`,
then slices the string to its first `2 + num_bits` characters. -/
def bits_to_string (bits : List Nat) (num_bits : Nat) (radix : Radix) : String :=
  if radix = Radix.HEX then
    "0x" ++ bytesHex bits
  else if radix = Radix.BIN then
    String.mk (('0' :: 'b' :: (bits.reverse.map format08b).flatten).take (2 + num_bits))
  else if radix = Radix.OCT then
    "0o" ++ octString (fromBytesLE bits)
  else
    "0x" ++ bytesHex bits

/-- `PerfettoTransaction._format_name`: radix-suffix table with `""` default
(REAL and STRING have no entry in the dict). -/
def format_name (name : String) (radix : Radix) : String :=
  name ++
    match radix with
    | Radix.BIN => "[bin]"
    | Radix.OCT => "[oct]"
    | Radix.DEC => "[dec]"
    | Radix.HEX => "[hex]"
    | Radix.UNSIGNED => "[u]"
    | Radix.TIME => "[time]"
    | _ => ""

/-- `PerfettoTransaction.is_closed`. -/
def Transaction.is_closed (t : Transaction) : Bool :=
  !t.is_open && decide (0 < t.end_time)

/-- `PerfettoTransaction.add_int`. -/
def Transaction.add_int (t : Transaction) (name : String) (value : Int)
    (radix : Radix) : Transaction :=
  { t with attributes := t.attributes ++
      [{ name := format_name name radix, value := AnnotValue.int_value value }] }

/-- `PerfettoTransaction.add_uint`. -/
def Transaction.add_uint (t : Transaction) (name : String) (value : Nat)
    (radix : Radix) : Transaction :=
  { t with attributes := t.attributes ++
      [{ name := format_name name radix, value := AnnotValue.uint_value value }] }

/-- `PerfettoTransaction.add_string` (no radix suffix). -/
def Transaction.add_string (t : Transaction) (name value : String) : Transaction :=
  { t with attributes := t.attributes ++
      [{ name := name, value := AnnotValue.string_value value }] }

/-- `PerfettoTransaction.add_time`: sugar for `add_uint` with radix TIME. -/
def Transaction.add_time (t : Transaction) (name : String) (value : Nat) : Transaction :=
  t.add_uint name value Radix.TIME

/-- `PerfettoTransaction.add_bits`. -/
def Transaction.add_bits (t : Transaction) (name : String) (bits : List Nat)
    (num_bits : Nat) (radix : Radix) : Transaction :=
  { t with attributes := t.attributes ++
      [{ name := format_name name radix
         value := AnnotValue.string_value (bits_to_string bits num_bits radix) }] }

/-- `PerfettoTransaction.add_blob` (hex string, no radix suffix). -/
def Transaction.add_blob (t : Transaction) (name : String) (data : List Nat) : Transaction :=
  { t with attributes := t.attributes ++
      [{ name := name, value := AnnotValue.string_value (bytesHex data) }] }

/-- Python truthiness of `txn.type_name` in `_emit_slice_begin`: `None` and
`""` contribute no category. -/
def categories_of : Option String → List String
  | some ty => if ty = "" then [] else [ty]
  | none => []

/-- `PerfettoTrace._emit_slice_begin` for a transaction value. -/
def emit_slice_begin (s : TraceState) (t : Transaction) : TraceState :=
  s.emit (Packet.slice_begin t.start_time t.track_uuid t.name
    (categories_of t.type_name) t.attributes t.flow_ids)

/-- `PerfettoTrace._emit_slice_end` for a transaction value. -/
def emit_slice_end (s : TraceState) (t : Transaction) : TraceState :=
  s.emit (Packet.slice_end t.end_time t.track_uuid t.flow_ids)

/-- `PerfettoTransaction.close` on the transaction at arena index `i`:
no-op unless `_is_open`; otherwise set `_end_time`, clear `_is_open`, then
emit slice-begin and slice-end. -/
def txn_close (s : TraceState) (i : Nat) (end_time : Int) : TraceState :=
  match s.txns[i]? with
  | none => s
  | some t =>
    if t.is_open then
      let t' : Transaction := { t with end_time := end_time, is_open := false }
      emit_slice_end (emit_slice_begin (s.setTxn i t') t') t'
    else s

/-- `PerfettoTransaction.add_link` from the transaction at index `src` to the
one at index `tgt`: allocate one flow id and append it to both `_flow_ids`
lists (`link_type` and `relation_name` are accepted and dropped). If both
indices name the same object, both appends land on that object's list. -/
def add_link (s : TraceState) (src tgt : Nat) (link_type : LinkType)
    (relation_name : Option String) : TraceState :=
  match s.txns[src]?, s.txns[tgt]? with
  | some a, some b =>
    let r := allocate_flow_id s
    let flow_id := r.1
    let s1 := r.2
    if src = tgt then
      s1.setTxn src { a with flow_ids := a.flow_ids ++ [flow_id, flow_id] }
    else
      (s1.setTxn src { a with flow_ids := a.flow_ids ++ [flow_id] }).setTxn tgt
        { b with flow_ids := b.flow_ids ++ [flow_id] }
  | _, _ => s

/-- One iteration of the loop in `PerfettoStream.close`: if the transaction
at index `j` is still open, close it with its own start time as end time. -/
def stream_close_step (acc : TraceState) (j : Nat) : TraceState :=
  match acc.txns[j]? with
  | some t => if t.is_open then txn_close acc j t.start_time else acc
  | none => acc

/-- `PerfettoStream.close` on the stream at index `i`: no-op if already
closed; otherwise close every still-open owned transaction with its own
start time as end time, then clear `_is_open`. -/
def stream_close (s : TraceState) (i : Nat) : TraceState :=
  match s.streams[i]? with
  | none => s
  | some st =>
    if st.is_open then
      match (st.transactions.foldl stream_close_step s).streams[i]? with
      | some st1 =>
        (st.transactions.foldl stream_close_step s).setStream i { st1 with is_open := false }
      | none => st.transactions.foldl stream_close_step s
    else s

/-- `PerfettoTrace.create_stream`: allocate a track uuid, build the stream
(whose `__init__` emits its track descriptor, with no parent uuid), append
it to the trace; returns the new stream's arena index. -/
def create_stream (s : TraceState) (name : String) (scope type_name : Option String) :
    Nat × TraceState :=
  let r := allocate_track_uuid s
  let track_uuid := r.1
  let s1 := r.2
  let st : Stream :=
    { track_uuid := track_uuid, name := name, scope := scope
      type_name := type_name, is_open := true, transactions := [] }
  let s2 := s1.emit (Packet.track_descriptor 0 track_uuid name none)
  (s2.streams.length, { s2 with streams := s2.streams ++ [st] })

/-- `PerfettoStream.begin_transaction` on the stream at index `i`, with the
body of `PerfettoTransaction.__init__` inlined (track allocation and child
track-descriptor emission when a parent is given). Returns the new
transaction's arena index, or the raised error; the state component is the
state as mutated up to the return or raise (the closed-stream check runs
before the transaction id is allocated). An out-of-arena parent index plays
the role of the `isinstance` TypeError. -/
def begin_transaction (s : TraceState) (i : Nat) (name : String) (start_time : Int)
    (type_name : Option String) (parent : Option Nat) :
    Except String Nat × TraceState :=
  match s.streams[i]? with
  | none => (Except.error "invalid stream", s)
  | some st =>
    if st.is_open then
      let r := allocate_transaction_id s
      let txn_id := r.1
      let s1 := r.2
      match parent with
      | none =>
        let t : Transaction :=
          { id := txn_id, stream_idx := i, name := name, type_name := type_name
            start_time := start_time, end_time := 0, is_open := true
            parent := none, track_uuid := st.track_uuid
            attributes := [], flow_ids := [] }
        let j := s1.txns.length
        let s2 := { s1 with txns := s1.txns ++ [t] }
        let s3 := match s2.streams[i]? with
          | some st2 => s2.setStream i { st2 with transactions := st2.transactions ++ [j] }
          | none => s2
        (Except.ok j, s3)
      | some p_idx =>
        match s1.txns[p_idx]? with
        | none => (Except.error "Parent must be a PerfettoTransaction", s1)
        | some pt =>
          let r2 := allocate_track_uuid s1
          let track_uuid := r2.1
          let s2 := r2.2
          let t : Transaction :=
            { id := txn_id, stream_idx := i, name := name, type_name := type_name
              start_time := start_time, end_time := 0, is_open := true
              parent := some p_idx, track_uuid := track_uuid
              attributes := [], flow_ids := [] }
          let s3 := s2.emit (Packet.track_descriptor 0 track_uuid name (some pt.track_uuid))
          let j := s3.txns.length
          let s4 := { s3 with txns := s3.txns ++ [t] }
          let s5 := match s4.streams[i]? with
            | some st2 => s4.setStream i { st2 with transactions := st2.transactions ++ [j] }
            | none => s4
          (Except.ok j, s5)
    else (Except.error "Cannot create transaction on closed stream", s)

/-- State-level `add_uint` on the transaction at arena index `i`. -/
def state_add_uint (s : TraceState) (i : Nat) (name : String) (value : Nat)
    (radix : Radix) : TraceState :=
  match s.txns[i]? with
  | some t => s.setTxn i (t.add_uint name value radix)
  | none => s

/-- State-level `add_bits` on the transaction at arena index `i`. -/
def state_add_bits (s : TraceState) (i : Nat) (name : String) (bits : List Nat)
    (num_bits : Nat) (radix : Radix) : TraceState :=
  match s.txns[i]? with
  | some t => s.setTxn i (t.add_bits name bits num_bits radix)
  | none => s

/-- The public operations of one trace, for reasoning about arbitrary call
sequences. -/
inductive TraceOp
  | create_stream (name : String) (scope type_name : Option String)
  | begin_txn (stream_idx : Nat) (name : String) (start_time : Int)
      (type_name : Option String) (parent : Option Nat)
  | txn_close (txn_idx : Nat) (end_time : Int)
  | stream_close (stream_idx : Nat)
  | add_link (src tgt : Nat) (link_type : LinkType) (relation_name : Option String)
  | add_uint (txn_idx : Nat) (name : String) (value : Nat) (radix : Radix)
  | add_bits (txn_idx : Nat) (name : String) (bits : List Nat) (num_bits : Nat)
      (radix : Radix)
deriving Repr

/-- Apply one public operation to the trace state. -/
def applyOp (s : TraceState) : TraceOp → TraceState
  | TraceOp.create_stream name scope type_name => (create_stream s name scope type_name).2
  | TraceOp.begin_txn i name start ty parent => (begin_transaction s i name start ty parent).2
  | TraceOp.txn_close i e => txn_close s i e
  | TraceOp.stream_close i => stream_close s i
  | TraceOp.add_link a b lt rel => add_link s a b lt rel
  | TraceOp.add_uint i name v r => state_add_uint s i name v r
  | TraceOp.add_bits i name bits nb r => state_add_bits s i name bits nb r

/-- Apply a sequence of public operations in order. -/
def applyOps (s : TraceState) (ops : List TraceOp) : TraceState :=
  ops.foldl applyOp s

/-- Iterate one allocator `n` times, collecting the returned identifiers in
call order. -/
def alloc_list (alloc : TraceState → Nat × TraceState) (s : TraceState) :
    Nat → List Nat × TraceState
  | 0 => ([], s)
  | n + 1 =>
    let r := alloc s
    let rest := alloc_list alloc r.2 n
    (r.1 :: rest.1, rest.2)

/-- The three identifier counters of a trace state, as one tuple. -/
def counters (s : TraceState) : Nat × Nat × Nat :=
  (s.next_track_uuid, s.next_transaction_id, s.next_flow_id)

/-- The packets `PerfettoStream.close` emits for the transaction at index
`j`, read off the pre-close state: a zero-duration slice (begin and end both
stamped with the transaction's start time) when it is still open, nothing
otherwise. -/
def close_emits (s : TraceState) (j : Nat) : List Packet :=
  match s.txns[j]? with
  | some t =>
    if t.is_open then
      [Packet.slice_begin t.start_time t.track_uuid t.name
         (categories_of t.type_name) t.attributes t.flow_ids,
       Packet.slice_end t.start_time t.track_uuid t.flow_ids]
    else []
  | none => []

/-- The bit-vector rendering exactly as claim C5 words it: BIN gives the
reversed-bytes binary rendering truncated to `2 + num_bits` characters, and
every other radix gives the HEX rendering. -/
def bits_to_string_claimC5 (bits : List Nat) (num_bits : Nat) (radix : Radix) : String :=
  if radix = Radix.BIN then
    String.mk (('0' :: 'b' :: (bits.reverse.map format08b).flatten).take (2 + num_bits))
  else
    "0x" ++ bytesHex bits

/-- Claim C5 amended by the OCT branch the code actually has: OCT renders
`"0o"` plus the octal digits of the little-endian integer value; BIN and the
remaining radices are as the claim states. -/
def bits_to_string_amendC5 (bits : List Nat) (num_bits : Nat) (radix : Radix) : String :=
  if radix = Radix.BIN then
    String.mk (('0' :: 'b' :: (bits.reverse.map format08b).flatten).take (2 + num_bits))
  else if radix = Radix.OCT then
    "0o" ++ octString (fromBytesLE bits)
  else
    "0x" ++ bytesHex bits

/-! Concrete trace states used by the witness theorems, built through the
public operations: a fresh trace, two streams on it, and one root
transaction on each stream. -/

/-- A freshly created trace. -/
def wb0 : TraceState := PerfettoTrace.init "t.trace" "S" "1ns"

/-- After `create_stream "bus"`: stream index 0, track uuid 1. -/
def wb1 : TraceState := (create_stream wb0 "bus" none none).2

/-- After `create_stream "bus2"`: stream index 1, track uuid 2. -/
def wb2 : TraceState := (create_stream wb1 "bus2" none none).2

/-- After `begin_transaction` of root transaction "p" at time 10 on
stream 0: transaction index 0. -/
def wb3 : TraceState := (begin_transaction wb2 0 "p" 10 none none).2

/-- After `begin_transaction` of root transaction "q" at time 20 on
stream 1: transaction index 1. -/
def wb4 : TraceState := (begin_transaction wb3 1 "q" 20 none none).2

/-- The transaction object at arena index 0 of `wb3` (and `wb4`). -/
def wTxn0 : Transaction :=
  { id := 1, stream_idx := 0, name := "p", type_name := none, start_time := 10
    end_time := 0, is_open := true, parent := none, track_uuid := 1
    attributes := [], flow_ids := [] }

/-- The transaction object at arena index 1 of `wb4`. -/
def wTxn1 : Transaction :=
  { id := 2, stream_idx := 1, name := "q", type_name := none, start_time := 20
    end_time := 0, is_open := true, parent := none, track_uuid := 2
    attributes := [], flow_ids := [] }

/-- The stream object at index 0 of `wb4`. -/
def wStream0 : Stream :=
  { track_uuid := 1, name := "bus", scope := none, type_name := none
    is_open := true, transactions := [0] }

/-- The stream object at index 1 of `wb4`. -/
def wStream1 : Stream :=
  { track_uuid := 2, name := "bus2", scope := none, type_name := none
    is_open := true, transactions := [1] }

/-- `wb4` with stream 1 closed (its transaction 1 force-closed). -/
def wb5 : TraceState := stream_close wb4 1

/-- The stream object at index 1 of `wb5`. -/
def wStream1c : Stream :=
  { track_uuid := 2, name := "bus2", scope := none, type_name := none
    is_open := false, transactions := [1] }

/-! Helper lemmas about the core operations, shared by the claim theorems. -/

/-- Effect of closing an open transaction: the arena slot is updated and the
two slice packets are appended. -/
theorem txn_close_spec (s : TraceState) (i : Nat) (t : Transaction) (e : Int)
    (hget : s.txns[i]? = some t) (hopen : t.is_open = true) :
    txn_close s i e =
      { s with
        txns := s.txns.set i { t with end_time := e, is_open := false }
        packets := s.packets ++
          [Packet.slice_begin t.start_time t.track_uuid t.name
             (categories_of t.type_name) t.attributes t.flow_ids,
           Packet.slice_end e t.track_uuid t.flow_ids] } := by
  simp [txn_close, hget, hopen, emit_slice_begin, emit_slice_end,
    TraceState.emit, TraceState.setTxn]

/-- Closing a transaction that is not open changes nothing. -/
theorem txn_close_noop (s : TraceState) (i : Nat) (t : Transaction) (e : Int)
    (hget : s.txns[i]? = some t) (hopen : t.is_open = false) :
    txn_close s i e = s := by
  simp [txn_close, hget, hopen]

/-- `write_varint` never produces the empty byte list. -/
theorem write_varint_ne_nil (v : Nat) : write_varint v ≠ [] := by
  rw [write_varint]
  split <;> simp

/-- Decoding the emitted varint bytes recovers the value. -/
theorem read_write_varint (v : Nat) : read_varint (write_varint v) = v := by
  induction v using Nat.strong_induction_on with
  | _ v ih =>
    rw [write_varint]
    by_cases h : 0x80 ≤ v
    · have hlt : v / 0x80 < v := Nat.div_lt_self (by omega) (by norm_num)
      simp only [h, dif_pos]
      have hb : ¬ (v % 0x80 + 0x80 < 0x80) := by omega
      simp only [read_varint, if_neg hb, Nat.add_mod_right, ih _ hlt]
      omega
    · simp only [h, dif_neg, not_false_iff]
      have hv : v % 0x80 = v := Nat.mod_eq_of_lt (by omega)
      simp [read_varint, hv, Nat.lt_of_not_le h]

/-- Every byte before the last carries the continuation bit. -/
theorem write_varint_dropLast (v : Nat) :
    ∀ b ∈ (write_varint v).dropLast, 0x80 ≤ b := by
  induction v using Nat.strong_induction_on with
  | _ v ih =>
    rw [write_varint]
    by_cases h : 0x80 ≤ v
    · have hlt : v / 0x80 < v := Nat.div_lt_self (by omega) (by norm_num)
      simp only [h, dif_pos]
      rw [List.dropLast_cons_of_ne_nil (write_varint_ne_nil _)]
      intro b hb
      rcases List.mem_cons.mp hb with hb | hb
      · omega
      · exact ih _ hlt b hb
    · simp [h]

/-- The last emitted byte has the continuation bit clear. -/
theorem write_varint_getLast (v : Nat) :
    ∀ b, (write_varint v).getLast? = some b → b < 0x80 := by
  induction v using Nat.strong_induction_on with
  | _ v ih =>
    rw [write_varint]
    by_cases h : 0x80 ≤ v
    · have hlt : v / 0x80 < v := Nat.div_lt_self (by omega) (by norm_num)
      simp only [h, dif_pos]
      intro b hb
      obtain ⟨c, l, hcl⟩ := List.exists_cons_of_ne_nil (write_varint_ne_nil (v / 0x80))
      rw [hcl, List.getLast?_cons_cons] at hb
      exact ih _ hlt b (by rw [hcl]; exact hb)
    · intro b hb
      simp only [h, dif_neg, not_false_iff, List.getLast?_singleton,
        Option.some.injEq] at hb
      omega

/-- The low 7 bits of the emitted bytes are the base-128 digits of the
value, least significant first. -/
theorem write_varint_digits (v : Nat) :
    Nat.ofDigits 128 ((write_varint v).map (· % 128)) = v := by
  induction v using Nat.strong_induction_on with
  | _ v ih =>
    rw [write_varint]
    by_cases h : 0x80 ≤ v
    · have hlt : v / 0x80 < v := Nat.div_lt_self (by omega) (by norm_num)
      simp only [h, dif_pos, List.map_cons, Nat.ofDigits_cons, ih _ hlt]
      omega
    · have hv : v % 0x80 % 128 = v := by omega
      simp [h, Nat.ofDigits_cons, Nat.ofDigits_nil, hv]

/-- Binary renderings of values below `2 ^ k` use at most `k` digits. -/
theorem natToBinChars_length_le : ∀ (k n : Nat), n < 2 ^ k →
    (natToBinChars n).length ≤ k := by
  intro k
  induction k with
  | zero =>
    intro n hn
    have : n = 0 := by omega
    rw [this, natToBinChars]
    simp
  | succ k ihk =>
    intro n hn
    rw [natToBinChars]
    by_cases h : n = 0
    · simp [h]
    · have hp : 2 ^ (k + 1) = 2 ^ k * 2 := pow_succ 2 k
      have hdiv : n / 2 < 2 ^ k := Nat.div_lt_of_lt_mul (by omega)
      simp only [h, dif_neg, not_false_iff, List.length_append, List.length_singleton]
      have := ihk (n / 2) hdiv
      omega

/-- For an actual byte, `format(b, '08b')` is exactly 8 characters. -/
theorem format08b_length (b : Nat) (hb : b < 256) : (format08b b).length = 8 := by
  have h8 : (if b = 0 then ['0'] else natToBinChars b).length ≤ 8 := by
    by_cases h : b = 0
    · simp [h]
    · simp only [h, if_neg, not_false_iff]
      exact natToBinChars_length_le 8 b (by norm_num [hb])
  simp only [format08b, List.length_append, List.length_replicate]
  omega

/-- The concatenated binary rendering of a byte string has `8 *` its length
characters. -/
theorem flatten_format08b_length (bits : List Nat) (hbytes : ∀ b ∈ bits, b < 256) :
    ((bits.reverse.map format08b).flatten).length = 8 * bits.length := by
  rw [List.length_flatten, List.map_map]
  have hmap : bits.reverse.map (List.length ∘ format08b) =
      bits.reverse.map (fun _ => 8) := by
    apply List.map_congr_left
    intro b hb
    exact format08b_length b (hbytes b (List.mem_reverse.mp hb))
  rw [hmap, List.map_const', List.sum_replicate, List.length_reverse, smul_eq_mul]
  omega

/-! The claim theorems. -/

/-- C9: for every `v < 2 ^ 64` the varint writer emits `v` seven bits per
byte, low-order bits first, with the continuation bit set on every byte
except the last, and a standard unsigned-varint decode of the emitted bytes
recovers `v` exactly. -/
theorem C9_varint_roundtrip (v : Nat) (hv : v < 2 ^ 64) :
    read_varint (write_varint v) = v ∧
    Nat.ofDigits 128 ((write_varint v).map (· % 128)) = v ∧
    (∀ b ∈ (write_varint v).dropLast, 0x80 ≤ b) ∧
    (∀ b, (write_varint v).getLast? = some b → b < 0x80) :=
  ⟨read_write_varint v, write_varint_digits v,
   write_varint_dropLast v, write_varint_getLast v⟩

/-- Witness for C9 at `v = 300`. -/
theorem C9_varint_roundtrip_witness :
    read_varint (write_varint 300) = 300 :=
  (C9_varint_roundtrip 300 (by norm_num)).1

/-- C5 counterexample: at radix OCT on the byte string `[0x08]` the code
renders `"0o10"`, not the HEX rendering `"0x08"`, so "every other radix
gives the same string as the HEX rendering" is false. -/
theorem C5_bits_cex :
    bits_to_string [8] 8 Radix.OCT ≠ bits_to_string_claimC5 [8] 8 Radix.OCT := by
  decide

/-- C5 amended: the HEX and BIN renderings are as the claim states and all
radices other than BIN and OCT fall back to HEX, but OCT renders `"0o"` plus
the octal digits of the little-endian value; under the claim's stated
assumption `num_bits ≤ 8 * len` the BIN rendering has exactly
`2 + num_bits` characters. -/
theorem C5_bits_rendering (bits : List Nat) (num_bits : Nat) (radix : Radix)
    (hbytes : ∀ b ∈ bits, b < 256) :
    bits_to_string bits num_bits radix = bits_to_string_amendC5 bits num_bits radix ∧
    (num_bits ≤ 8 * bits.length →
      (bits_to_string bits num_bits Radix.BIN).length = 2 + num_bits) := by
  constructor
  · cases radix <;> rfl
  · intro hle
    have hflat := flatten_format08b_length bits hbytes
    have hbin : bits_to_string bits num_bits Radix.BIN =
        String.mk (('0' :: 'b' :: (bits.reverse.map format08b).flatten).take (2 + num_bits)) :=
      rfl
    rw [hbin, String.length_mk, List.length_take]
    simp only [List.length_cons, hflat]
    omega

/-- Witness for C5 amended at `bits = [0xde]`, `num_bits = 8`, radix BIN. -/
theorem C5_bits_rendering_witness :
    bits_to_string [222] 8 Radix.BIN = bits_to_string_amendC5 [222] 8 Radix.BIN ∧
    (bits_to_string [222] 8 Radix.BIN).length = 2 + 8 :=
  ⟨(C5_bits_rendering [222] 8 Radix.BIN (by decide)).1,
   (C5_bits_rendering [222] 8 Radix.BIN (by decide)).2 (by norm_num)⟩

/-- C6 counterexample: `add_bits` with `num_bits = 100` on the 1-byte string
`[0x05]` (so `num_bits > 8 * len`) does not fail: it silently appends a
normally formed attribute whose BIN rendering has only 10 characters. -/
theorem C6_bits_cex :
    (Transaction.add_bits wTxn0 "x" [5] 100 Radix.BIN).attributes =
      [{ name := "x[bin]", value := AnnotValue.string_value "0b00000101" }] := by
  have h5 : natToBinChars 5 = ['1', '0', '1'] := by
    rw [natToBinChars]
    norm_num
    rw [natToBinChars]
    norm_num
    rw [natToBinChars]
    norm_num
    rw [natToBinChars]
    norm_num
  have hs : bits_to_string [5] 100 Radix.BIN = "0b00000101" := by
    have : format08b 5 = ['0', '0', '0', '0', '0', '1', '0', '1'] := by
      simp [format08b, h5]
    simp [bits_to_string, this]
  simp [Transaction.add_bits, hs, wTxn0, format_name]

/-- C6 amended: a call to `add_bits` whose `num_bits` exceeds `8 *` the byte
length is not rejected; it appends the attribute as usual, and with BIN
radix the rendered string has `2 + 8 * len` characters, fewer than the
`2 + num_bits` the fixed-width policy promises. -/
theorem C6_bits_overflow_absorbed (t : Transaction) (name : String)
    (bits : List Nat) (num_bits : Nat) (radix : Radix)
    (hbytes : ∀ b ∈ bits, b < 256) (hover : 8 * bits.length < num_bits) :
    (t.add_bits name bits num_bits radix).attributes =
      t.attributes ++
        [{ name := format_name name radix
           value := AnnotValue.string_value (bits_to_string bits num_bits radix) }] ∧
    (bits_to_string bits num_bits Radix.BIN).length = 2 + 8 * bits.length := by
  constructor
  · rfl
  · have hflat := flatten_format08b_length bits hbytes
    have hbin : bits_to_string bits num_bits Radix.BIN =
        String.mk (('0' :: 'b' :: (bits.reverse.map format08b).flatten).take (2 + num_bits)) :=
      rfl
    rw [hbin, String.length_mk, List.length_take]
    simp only [List.length_cons, hflat]
    omega

/-- Witness for C6 amended at `bits = [0x05]`, `num_bits = 100`. -/
theorem C6_bits_overflow_absorbed_witness :
    (Transaction.add_bits wTxn0 "x" [5] 100 Radix.BIN).attributes =
      wTxn0.attributes ++
        [{ name := format_name "x" Radix.BIN
           value := AnnotValue.string_value (bits_to_string [5] 100 Radix.BIN) }] ∧
    (bits_to_string [5] 100 Radix.BIN).length = 2 + 8 * [5].length :=
  C6_bits_overflow_absorbed wTxn0 "x" [5] 100 Radix.BIN (by decide) (by norm_num)

/-- C1: closing an open transaction sets its end time, marks it closed, and
appends exactly two packets in order: the slice-begin stamped with the start
time and carrying the accumulated annotation records and flow ids, then the
slice-end stamped with the given end time and carrying the same flow-id
list; closing an already-closed transaction changes nothing and emits
nothing. -/
theorem C1_close_emits (s : TraceState) (i : Nat) (t : Transaction) (e : Int)
    (hget : s.txns[i]? = some t) :
    (t.is_open = true →
      txn_close s i e =
        { s with
          txns := s.txns.set i { t with end_time := e, is_open := false }
          packets := s.packets ++
            [Packet.slice_begin t.start_time t.track_uuid t.name
               (categories_of t.type_name) t.attributes t.flow_ids,
             Packet.slice_end e t.track_uuid t.flow_ids] }) ∧
    (t.is_closed = true → txn_close s i e = s) := by
  constructor
  · intro hopen
    exact txn_close_spec s i t e hget hopen
  · intro hclosed
    simp only [Transaction.is_closed, Bool.and_eq_true, Bool.not_eq_true',
      decide_eq_true_eq] at hclosed
    exact txn_close_noop s i t e hget hclosed.1

/-- The transaction of `wb3` after being closed at time 200. -/
def wTxn0c : Transaction := { wTxn0 with end_time := 200, is_open := false }

/-- Witness for C1: close transaction 0 of `wb3` at time 200, then close it
again at time 300. -/
theorem C1_close_emits_witness :
    (txn_close wb3 0 200 =
      { wb3 with
        txns := wb3.txns.set 0 wTxn0c
        packets := wb3.packets ++
          [Packet.slice_begin wTxn0.start_time wTxn0.track_uuid wTxn0.name
             (categories_of wTxn0.type_name) wTxn0.attributes wTxn0.flow_ids,
           Packet.slice_end 200 wTxn0.track_uuid wTxn0.flow_ids] }) ∧
    txn_close (txn_close wb3 0 200) 0 300 = txn_close wb3 0 200 :=
  ⟨(C1_close_emits wb3 0 wTxn0 200 (by decide)).1 (by decide),
   (C1_close_emits (txn_close wb3 0 200) 0 wTxn0c 300 (by decide)).2 (by decide)⟩

/-- C10: `is_closed` is the conjunction "not open and end time positive";
closing an open transaction at end time 0 still emits both slice packets
but leaves the transaction neither open nor closed. -/
theorem C10_is_closed_semantics (s : TraceState) (i : Nat) (t : Transaction)
    (hget : s.txns[i]? = some t) (hopen : t.is_open = true) :
    (∀ u : Transaction, u.is_closed = true ↔ (u.is_open = false ∧ 0 < u.end_time)) ∧
    (txn_close s i 0).txns[i]? = some { t with end_time := 0, is_open := false } ∧
    ({ t with end_time := (0 : Int), is_open := false } : Transaction).is_open = false ∧
    ({ t with end_time := (0 : Int), is_open := false } : Transaction).is_closed = false ∧
    (txn_close s i 0).packets = s.packets ++
      [Packet.slice_begin t.start_time t.track_uuid t.name
         (categories_of t.type_name) t.attributes t.flow_ids,
       Packet.slice_end 0 t.track_uuid t.flow_ids] := by
  have hi : i < s.txns.length := (List.getElem?_eq_some.mp hget).1
  have hspec := txn_close_spec s i t 0 hget hopen
  refine ⟨?_, ?_, rfl, ?_, ?_⟩
  · intro u
    simp [Transaction.is_closed]
  · rw [hspec]
    simp [List.getElem?_set, hi]
  · simp [Transaction.is_closed]
  · rw [hspec]

/-- Witness for C10: close transaction 0 of `wb3` at end time 0. -/
theorem C10_is_closed_semantics_witness :
    (txn_close wb3 0 0).txns[0]? =
      some { wTxn0 with end_time := 0, is_open := false } ∧
    ({ wTxn0 with end_time := (0 : Int), is_open := false } : Transaction).is_open = false ∧
    ({ wTxn0 with end_time := (0 : Int), is_open := false } : Transaction).is_closed = false ∧
    (txn_close wb3 0 0).packets = wb3.packets ++
      [Packet.slice_begin wTxn0.start_time wTxn0.track_uuid wTxn0.name
         (categories_of wTxn0.type_name) wTxn0.attributes wTxn0.flow_ids,
       Packet.slice_end 0 wTxn0.track_uuid wTxn0.flow_ids] :=
  (C10_is_closed_semantics wb3 0 wTxn0 (by decide) (by decide)).2

/-- C8: `add_link` from transaction `a` to a different transaction `b`
allocates exactly one fresh flow id (the current counter value) and appends
it, and nothing else, to both transactions' flow-id lists; every other
transaction, the streams, the packets, and the other counters are untouched,
and the declared link kind and relation name have no effect on the result. -/
theorem C8_add_link_flow (s : TraceState) (a b : Nat) (ta tb : Transaction)
    (hab : a ≠ b) (ha : s.txns[a]? = some ta) (hb : s.txns[b]? = some tb)
    (lt lt' : LinkType) (rel rel' : Option String) :
    (add_link s a b lt rel).txns[a]? =
      some { ta with flow_ids := ta.flow_ids ++ [s.next_flow_id] } ∧
    (add_link s a b lt rel).txns[b]? =
      some { tb with flow_ids := tb.flow_ids ++ [s.next_flow_id] } ∧
    (add_link s a b lt rel).next_flow_id = s.next_flow_id + 1 ∧
    (∀ k, k ≠ a → k ≠ b → (add_link s a b lt rel).txns[k]? = s.txns[k]?) ∧
    (add_link s a b lt rel).streams = s.streams ∧
    (add_link s a b lt rel).packets = s.packets ∧
    (add_link s a b lt rel).next_track_uuid = s.next_track_uuid ∧
    (add_link s a b lt rel).next_transaction_id = s.next_transaction_id ∧
    add_link s a b lt rel = add_link s a b lt' rel' := by
  have hA : a < s.txns.length := (List.getElem?_eq_some.mp ha).1
  have hB : b < s.txns.length := (List.getElem?_eq_some.mp hb).1
  have hdef : add_link s a b lt rel =
      TraceState.setTxn
        (TraceState.setTxn { s with next_flow_id := s.next_flow_id + 1 } a
          { ta with flow_ids := ta.flow_ids ++ [s.next_flow_id] }) b
        { tb with flow_ids := tb.flow_ids ++ [s.next_flow_id] } := by
    simp [add_link, ha, hb, hab, allocate_flow_id]
  refine ⟨?_, ?_, ?_, ?_, ?_, ?_, ?_, ?_, rfl⟩
  · rw [hdef]
    simp [TraceState.setTxn, List.getElem?_set, List.length_set, hA, Ne.symm hab]
  · rw [hdef]
    simp [TraceState.setTxn, List.getElem?_set, List.length_set, hB]
  · rw [hdef]
    rfl
  · intro k hka hkb
    rw [hdef]
    simp [TraceState.setTxn, List.getElem?_set, Ne.symm hka, Ne.symm hkb]
  · rw [hdef]
    rfl
  · rw [hdef]
    rfl
  · rw [hdef]
    rfl
  · rw [hdef]
    rfl

/-- Witness for C8: link transaction 0 to transaction 1 of `wb4`, with two
different kind/relation argument pairs. -/
theorem C8_add_link_flow_witness :
    (add_link wb4 0 1 LinkType.RELATED none).txns[0]? =
      some { wTxn0 with flow_ids := wTxn0.flow_ids ++ [wb4.next_flow_id] } ∧
    (add_link wb4 0 1 LinkType.RELATED none).txns[1]? =
      some { wTxn1 with flow_ids := wTxn1.flow_ids ++ [wb4.next_flow_id] } ∧
    (add_link wb4 0 1 LinkType.RELATED none).next_flow_id = wb4.next_flow_id + 1 ∧
    add_link wb4 0 1 LinkType.RELATED none =
      add_link wb4 0 1 LinkType.CAUSE_EFFECT (some "r") := by
  have h := C8_add_link_flow wb4 0 1 wTxn0 wTxn1 (by decide) (by decide) (by decide)
    LinkType.RELATED LinkType.CAUSE_EFFECT none (some "r")
  exact ⟨h.1, h.2.1, h.2.2.1, h.2.2.2.2.2.2.2.2⟩

/-- C3: a transaction begun without a parent reuses its stream's track (no
track allocated, no packet emitted at creation); a transaction begun with a
parent gets the freshly allocated track uuid (the counter value, which is
then bumped) and a track-descriptor packet is emitted at creation whose
parent uuid is the parent transaction's own track uuid. -/
theorem C3_track_hierarchy (s : TraceState) (i : Nat) (st : Stream)
    (hst : s.streams[i]? = some st) (hopen : st.is_open = true)
    (name : String) (start : Int) (ty : Option String) :
    ((begin_transaction s i name start ty none).1 = Except.ok s.txns.length ∧
     (((begin_transaction s i name start ty none).2.txns[s.txns.length]?).map
        Transaction.track_uuid) = some st.track_uuid ∧
     (begin_transaction s i name start ty none).2.next_track_uuid = s.next_track_uuid ∧
     (begin_transaction s i name start ty none).2.packets = s.packets) ∧
    (∀ p_idx pt, s.txns[p_idx]? = some pt →
      (begin_transaction s i name start ty (some p_idx)).1 = Except.ok s.txns.length ∧
      (((begin_transaction s i name start ty (some p_idx)).2.txns[s.txns.length]?).map
         Transaction.track_uuid) = some s.next_track_uuid ∧
      (begin_transaction s i name start ty (some p_idx)).2.next_track_uuid
        = s.next_track_uuid + 1 ∧
      (begin_transaction s i name start ty (some p_idx)).2.packets
        = s.packets ++
            [Packet.track_descriptor 0 s.next_track_uuid name (some pt.track_uuid)]) := by
  constructor
  · simp [begin_transaction, hst, hopen, allocate_transaction_id,
      TraceState.setStream, List.getElem?_concat_length]
  · intro p_idx pt hp
    simp [begin_transaction, hst, hopen, hp, allocate_transaction_id,
      allocate_track_uuid, TraceState.setStream, TraceState.emit,
      List.getElem?_concat_length]

/-- Witness for C3 on `wb3`: a root transaction reuses track 1 of stream
"bus"; a child of transaction 0 gets the fresh track and its descriptor
packet references the parent's track. -/
theorem C3_track_hierarchy_witness :
    (begin_transaction wb3 0 "r" 30 none none).1 = Except.ok 1 ∧
    (((begin_transaction wb3 0 "r" 30 none none).2.txns[1]?).map
       Transaction.track_uuid) = some 1 ∧
    (begin_transaction wb3 0 "r" 30 none none).2.packets = wb3.packets ∧
    (begin_transaction wb3 0 "c" 30 none (some 0)).2.next_track_uuid
      = wb3.next_track_uuid + 1 ∧
    (begin_transaction wb3 0 "c" 30 none (some 0)).2.packets
      = wb3.packets ++
          [Packet.track_descriptor 0 wb3.next_track_uuid "c" (some wTxn0.track_uuid)] := by
  have hr := (C3_track_hierarchy wb3 0 wStream0 (by decide) (by decide) "r" 30 none).1
  have hc := (C3_track_hierarchy wb3 0 wStream0 (by decide) (by decide) "c" 30 none).2
    0 wTxn0 (by decide)
  exact ⟨hr.1, hr.2.1, hr.2.2.2, hc.2.2.1, hc.2.2.2⟩

/-- C7 counterexample: on `wb4`, transaction 0 belongs to stream 0, yet
`begin_transaction` on stream 1 naming it as parent succeeds instead of
raising, so "raises … if the supplied parent transaction belongs to a
different stream" is false. -/
theorem C7_begin_cex :
    wb4.txns[0]? = some wTxn0 ∧
    wTxn0.stream_idx = 0 ∧
    (begin_transaction wb4 1 "c" 11 none (some 0)).1 = Except.ok 2 := by
  refine ⟨by decide, by decide, ?_⟩
  rfl

/-- C7 amended: `begin_transaction` fails iff its stream is closed (any
existing parent transaction is accepted, regardless of which stream it
belongs to); on the closed-stream failure the state is returned unchanged,
so no transaction is created, no transaction identifier is consumed, and
the stream's transaction list is untouched. -/
theorem C7_begin_guard (s : TraceState) (i : Nat) (st : Stream)
    (hst : s.streams[i]? = some st) (name : String) (start : Int)
    (ty : Option String) :
    (st.is_open = false →
      ∀ parent, begin_transaction s i name start ty parent =
        (Except.error "Cannot create transaction on closed stream", s)) ∧
    (st.is_open = true →
      (begin_transaction s i name start ty none).1 = Except.ok s.txns.length ∧
      ∀ p_idx pt, s.txns[p_idx]? = some pt →
        (begin_transaction s i name start ty (some p_idx)).1
          = Except.ok s.txns.length) := by
  constructor
  · intro hcl parent
    simp [begin_transaction, hst, hcl]
  · intro hop
    constructor
    · simp [begin_transaction, hst, hop, allocate_transaction_id, TraceState.setStream]
    · intro p_idx pt hp
      simp [begin_transaction, hst, hop, hp, allocate_transaction_id,
        allocate_track_uuid, TraceState.setStream, TraceState.emit]

/-- Witness for C7 amended: the closed stream 1 of `wb5` rejects creation
leaving the state untouched, while the open stream 0 of `wb4` accepts a
parent from stream 1. -/
theorem C7_begin_guard_witness :
    begin_transaction wb5 1 "x" 50 none none =
      (Except.error "Cannot create transaction on closed stream", wb5) ∧
    (begin_transaction wb4 0 "y" 50 none (some 1)).1 = Except.ok 2 := by
  refine ⟨(C7_begin_guard wb5 1 wStream1c (by decide) "x" 50 none).1 (by decide) none, ?_⟩
  exact ((C7_begin_guard wb4 0 wStream0 (by decide) "y" 50 none).2 (by decide)).2
    1 wTxn1 (by decide)

/-! Counter lemmas for C2. -/

/-- Closing a transaction touches no identifier counter. -/
theorem counters_txn_close (s : TraceState) (i : Nat) (e : Int) :
    counters (txn_close s i e) = counters s := by
  unfold txn_close
  split
  · rfl
  · split <;> rfl

/-- One `PerfettoStream.close` loop iteration touches no identifier
counter. -/
theorem counters_stream_close_step (s : TraceState) (j : Nat) :
    counters (stream_close_step s j) = counters s := by
  unfold stream_close_step
  split
  · split
    · exact counters_txn_close _ _ _
    · rfl
  · rfl

/-- The whole `PerfettoStream.close` loop touches no identifier counter. -/
theorem counters_stream_close_fold (l : List Nat) : ∀ s : TraceState,
    counters (l.foldl stream_close_step s) = counters s := by
  induction l with
  | nil =>
    intro s
    rfl
  | cons j l ihl =>
    intro s
    rw [List.foldl_cons, ihl, counters_stream_close_step]

/-- `PerfettoStream.close` touches no identifier counter. -/
theorem counters_stream_close (s : TraceState) (i : Nat) :
    counters (stream_close s i) = counters s := by
  unfold stream_close
  split
  · rfl
  · split
    · split
      · show counters (TraceState.setStream _ _ _) = counters s
        rw [show ∀ (x : TraceState) (k : Nat) (st : Stream),
            counters (x.setStream k st) = counters x from fun _ _ _ => rfl]
        exact counters_stream_close_fold _ _
      · exact counters_stream_close_fold _ _
    · rfl

/-- The three counters never decrease, componentwise. -/
def countersLE (s s' : TraceState) : Prop :=
  s.next_track_uuid ≤ s'.next_track_uuid ∧
  s.next_transaction_id ≤ s'.next_transaction_id ∧
  s.next_flow_id ≤ s'.next_flow_id

theorem countersLE_refl (s : TraceState) : countersLE s s :=
  ⟨le_refl _, le_refl _, le_refl _⟩

theorem countersLE_trans {a b c : TraceState} (h1 : countersLE a b)
    (h2 : countersLE b c) : countersLE a c :=
  ⟨le_trans h1.1 h2.1, le_trans h1.2.1 h2.2.1, le_trans h1.2.2 h2.2.2⟩

theorem countersLE_of_eq {s s' : TraceState} (h : counters s' = counters s) :
    countersLE s s' := by
  simp only [counters, Prod.mk.injEq] at h
  exact ⟨le_of_eq h.1.symm, le_of_eq h.2.1.symm, le_of_eq h.2.2.symm⟩

/-- `begin_transaction` never decreases a counter. -/
theorem countersLE_begin (s : TraceState) (i : Nat) (name : String) (start : Int)
    (ty : Option String) (parent : Option Nat) :
    countersLE s (begin_transaction s i name start ty parent).2 := by
  unfold begin_transaction
  cases hst : s.streams[i]? with
  | none => exact countersLE_refl s
  | some st =>
    cases hop : st.is_open with
    | false =>
      simp only [hst, hop, Bool.false_eq_true, if_false]
      exact countersLE_refl s
    | true =>
      cases parent with
      | none =>
        simp [hst, hop, allocate_transaction_id, TraceState.setStream]
        exact ⟨le_refl _, Nat.le_succ _, le_refl _⟩
      | some p_idx =>
        cases hp : s.txns[p_idx]? with
        | none =>
          simp [hst, hop, hp, allocate_transaction_id]
          exact ⟨le_refl _, Nat.le_succ _, le_refl _⟩
        | some pt =>
          simp [hst, hop, hp, allocate_transaction_id, allocate_track_uuid,
            TraceState.emit, TraceState.setStream]
          exact ⟨Nat.le_succ _, Nat.le_succ _, le_refl _⟩

/-- `add_link` never decreases a counter. -/
theorem countersLE_add_link (s : TraceState) (a b : Nat) (lt : LinkType)
    (rel : Option String) : countersLE s (add_link s a b lt rel) := by
  unfold add_link
  cases ha : s.txns[a]? with
  | none =>
    simp only [ha]
    exact countersLE_refl s
  | some ta =>
    cases hb : s.txns[b]? with
    | none =>
      simp only [ha, hb]
      exact countersLE_refl s
    | some tb =>
      by_cases hab : a = b
      · simp [ha, hb, hab, allocate_flow_id, TraceState.setTxn]
        exact ⟨le_refl _, le_refl _, Nat.le_succ _⟩
      · simp [ha, hb, hab, allocate_flow_id, TraceState.setTxn]
        exact ⟨le_refl _, le_refl _, Nat.le_succ _⟩

/-- Every public operation leaves each identifier counter at or above its
previous value: identifiers are never reused across any call sequence. -/
theorem countersLE_applyOp (s : TraceState) (op : TraceOp) :
    countersLE s (applyOp s op) := by
  cases op with
  | create_stream name scope ty =>
    simp only [applyOp]
    simp [create_stream, allocate_track_uuid, TraceState.emit]
    exact ⟨Nat.le_succ _, le_refl _, le_refl _⟩
  | begin_txn i name start ty parent => exact countersLE_begin s i name start ty parent
  | txn_close i e => exact countersLE_of_eq (counters_txn_close s i e)
  | stream_close i => exact countersLE_of_eq (counters_stream_close s i)
  | add_link a b lt rel => exact countersLE_add_link s a b lt rel
  | add_uint i name v r =>
    apply countersLE_of_eq
    simp only [applyOp]
    unfold state_add_uint
    cases hs : s.txns[i]? <;> simp only [hs] <;> rfl
  | add_bits i name bits nb r =>
    apply countersLE_of_eq
    simp only [applyOp]
    unfold state_add_bits
    cases hs : s.txns[i]? <;> simp only [hs] <;> rfl

/-- Counter monotonicity over arbitrary operation sequences. -/
theorem countersLE_applyOps (ops : List TraceOp) : ∀ s : TraceState,
    countersLE s (applyOps s ops) := by
  induction ops with
  | nil =>
    intro s
    exact countersLE_refl s
  | cons op ops ih =>
    intro s
    exact countersLE_trans (countersLE_applyOp s op) (ih (applyOp s op))

/-- Iterating the track allocator returns consecutive values from the
current counter and advances the counter by the number of calls. -/
theorem alloc_list_track (n : Nat) : ∀ s : TraceState,
    (alloc_list allocate_track_uuid s n).1 = List.range' s.next_track_uuid n ∧
    (alloc_list allocate_track_uuid s n).2.next_track_uuid
      = s.next_track_uuid + n := by
  induction n with
  | zero =>
    intro s
    exact ⟨rfl, rfl⟩
  | succ n ihn =>
    intro s
    constructor
    · simp [alloc_list, allocate_track_uuid, List.range'_succ,
        (ihn { s with next_track_uuid := s.next_track_uuid + 1 }).1]
    · simp [alloc_list, allocate_track_uuid,
        (ihn { s with next_track_uuid := s.next_track_uuid + 1 }).2]
      omega

/-- Iterating the transaction-id allocator returns consecutive values from
the current counter and advances the counter by the number of calls. -/
theorem alloc_list_txn (n : Nat) : ∀ s : TraceState,
    (alloc_list allocate_transaction_id s n).1
      = List.range' s.next_transaction_id n ∧
    (alloc_list allocate_transaction_id s n).2.next_transaction_id
      = s.next_transaction_id + n := by
  induction n with
  | zero =>
    intro s
    exact ⟨rfl, rfl⟩
  | succ n ihn =>
    intro s
    constructor
    · simp [alloc_list, allocate_transaction_id, List.range'_succ,
        (ihn { s with next_transaction_id := s.next_transaction_id + 1 }).1]
    · simp [alloc_list, allocate_transaction_id,
        (ihn { s with next_transaction_id := s.next_transaction_id + 1 }).2]
      omega

/-- Iterating the flow-id allocator returns consecutive values from the
current counter and advances the counter by the number of calls. -/
theorem alloc_list_flow (n : Nat) : ∀ s : TraceState,
    (alloc_list allocate_flow_id s n).1 = List.range' s.next_flow_id n ∧
    (alloc_list allocate_flow_id s n).2.next_flow_id = s.next_flow_id + n := by
  induction n with
  | zero =>
    intro s
    exact ⟨rfl, rfl⟩
  | succ n ihn =>
    intro s
    constructor
    · simp [alloc_list, allocate_flow_id, List.range'_succ,
        (ihn { s with next_flow_id := s.next_flow_id + 1 }).1]
    · simp [alloc_list, allocate_flow_id,
        (ihn { s with next_flow_id := s.next_flow_id + 1 }).2]
      omega

/-- C2: on a fresh trace each of the three allocators returns 1 on its first
call; any `n` consecutive calls of one allocator return the consecutive
values starting at its current counter, which are strictly increasing and
pairwise distinct; and no public operation sequence ever decreases a
counter, so identifiers are never reused within one trace's lifetime. -/
theorem C2_id_allocators (filename nm tu : String) (s : TraceState) (n : Nat)
    (ops : List TraceOp) :
    (allocate_track_uuid (PerfettoTrace.init filename nm tu)).1 = 1 ∧
    (allocate_transaction_id (PerfettoTrace.init filename nm tu)).1 = 1 ∧
    (allocate_flow_id (PerfettoTrace.init filename nm tu)).1 = 1 ∧
    (alloc_list allocate_track_uuid s n).1 = List.range' s.next_track_uuid n ∧
    (alloc_list allocate_transaction_id s n).1
      = List.range' s.next_transaction_id n ∧
    (alloc_list allocate_flow_id s n).1 = List.range' s.next_flow_id n ∧
    ((alloc_list allocate_track_uuid s n).1).Pairwise (· < ·) ∧
    ((alloc_list allocate_transaction_id s n).1).Pairwise (· < ·) ∧
    ((alloc_list allocate_flow_id s n).1).Pairwise (· < ·) ∧
    s.next_track_uuid ≤ (applyOps s ops).next_track_uuid ∧
    s.next_transaction_id ≤ (applyOps s ops).next_transaction_id ∧
    s.next_flow_id ≤ (applyOps s ops).next_flow_id := by
  have hops := countersLE_applyOps ops s
  refine ⟨rfl, rfl, rfl, (alloc_list_track n s).1, (alloc_list_txn n s).1,
    (alloc_list_flow n s).1, ?_, ?_, ?_, hops.1, hops.2.1, hops.2.2⟩
  · rw [(alloc_list_track n s).1]
    exact List.pairwise_lt_range' _ _
  · rw [(alloc_list_txn n s).1]
    exact List.pairwise_lt_range' _ _
  · rw [(alloc_list_flow n s).1]
    exact List.pairwise_lt_range' _ _

/-- Effect of one `PerfettoStream.close` loop iteration on the transaction
at index `j`. -/
theorem stream_close_step_spec (s : TraceState) (j : Nat) (t : Transaction)
    (ht : s.txns[j]? = some t) :
    stream_close_step s j =
      if t.is_open then
        { s with
          txns := s.txns.set j { t with end_time := t.start_time, is_open := false }
          packets := s.packets ++ close_emits s j }
      else s := by
  unfold stream_close_step
  simp only [ht]
  by_cases hop : t.is_open = true
  · rw [if_pos hop, if_pos hop, txn_close_spec s j t t.start_time ht hop]
    simp [close_emits, ht, hop]
  · rw [if_neg hop, if_neg hop]

/-- Effect of the whole `PerfettoStream.close` loop: every listed open
transaction is closed with its own start time, unlisted transactions and
all streams are untouched, and the zero-duration slice packets of the
listed open transactions are appended in list order. -/
theorem stream_close_fold (l : List Nat) : ∀ s : TraceState,
    l.Nodup → (∀ j ∈ l, j < s.txns.length) →
    (l.foldl stream_close_step s).streams = s.streams ∧
    (l.foldl stream_close_step s).txns.length = s.txns.length ∧
    (∀ k, k ∉ l → (l.foldl stream_close_step s).txns[k]? = s.txns[k]?) ∧
    (∀ j ∈ l, ∀ t, s.txns[j]? = some t →
      (l.foldl stream_close_step s).txns[j]? =
        some (if t.is_open then { t with end_time := t.start_time, is_open := false }
              else t)) ∧
    (l.foldl stream_close_step s).packets
      = s.packets ++ (l.map (close_emits s)).flatten := by
  induction l with
  | nil =>
    intro s _ _
    simp
  | cons j l ihl =>
    intro s hnd hval
    have hj : j < s.txns.length := hval j (List.mem_cons_self j l)
    have hjl : j ∉ l := (List.nodup_cons.mp hnd).1
    have hndl : l.Nodup := (List.nodup_cons.mp hnd).2
    obtain ⟨t, ht⟩ : ∃ u, s.txns[j]? = some u := ⟨_, List.getElem?_eq_getElem hj⟩
    have hstep := stream_close_step_spec s j t ht
    by_cases hop : t.is_open = true
    · rw [if_pos hop] at hstep
      have hS1streams : (stream_close_step s j).streams = s.streams := by rw [hstep]
      have hS1len : (stream_close_step s j).txns.length = s.txns.length := by
        rw [hstep]
        simp [List.length_set]
      have hS1get_ne : ∀ k, k ≠ j →
          (stream_close_step s j).txns[k]? = s.txns[k]? := by
        intro k hk
        rw [hstep]
        simp [List.getElem?_set, Ne.symm hk]
      have hS1get_j : (stream_close_step s j).txns[j]? =
          some { t with end_time := t.start_time, is_open := false } := by
        rw [hstep]
        simp [List.getElem?_set, hj]
      have hS1pack : (stream_close_step s j).packets = s.packets ++ close_emits s j := by
        rw [hstep]
      have ih := ihl (stream_close_step s j) hndl
        (fun j2 hj2 => hS1len ▸ hval j2 (List.mem_cons_of_mem j hj2))
      rw [List.foldl_cons]
      refine ⟨?_, ?_, ?_, ?_, ?_⟩
      · rw [ih.1, hS1streams]
      · rw [ih.2.1, hS1len]
      · intro k hk
        have hk1 : k ≠ j := fun h => hk (h ▸ List.mem_cons_self j l)
        have hk2 : k ∉ l := fun h => hk (List.mem_cons_of_mem j h)
        rw [ih.2.2.1 k hk2, hS1get_ne k hk1]
      · intro j2 hj2 u hu
        rcases List.mem_cons.mp hj2 with hje | hjm
        · subst hje
          have hut : u = t := by
            rw [ht] at hu
            exact (Option.some.inj hu).symm
          rw [ih.2.2.1 j2 hjl, hS1get_j, hut, if_pos hop]
        · have hne : j2 ≠ j := fun h => hjl (h ▸ hjm)
          exact ih.2.2.2.1 j2 hjm u ((hS1get_ne j2 hne).symm ▸ hu)
      · rw [ih.2.2.2.2, hS1pack]
        have hce : l.map (close_emits (stream_close_step s j)) = l.map (close_emits s) := by
          apply List.map_congr_left
          intro k hk
          have hne : k ≠ j := fun h => hjl (h ▸ hk)
          unfold close_emits
          rw [hS1get_ne k hne]
        rw [hce]
        simp
    · rw [if_neg hop] at hstep
      rw [List.foldl_cons, hstep]
      have ih := ihl s hndl (fun j2 hj2 => hval j2 (List.mem_cons_of_mem j hj2))
      refine ⟨ih.1, ih.2.1, ?_, ?_, ?_⟩
      · intro k hk
        exact ih.2.2.1 k (fun h => hk (List.mem_cons_of_mem j h))
      · intro j2 hj2 u hu
        rcases List.mem_cons.mp hj2 with hje | hjm
        · subst hje
          have hut : u = t := by
            rw [ht] at hu
            exact (Option.some.inj hu).symm
          rw [ih.2.2.1 j2 hjl, hu, hut, if_neg hop]
        · exact ih.2.2.2.1 j2 hjm u hu
      · rw [ih.2.2.2.2]
        have hce0 : close_emits s j = [] := by
          unfold close_emits
          rw [ht]
          simp [hop]
        simp [hce0]

/-- C4: closing an open stream force-closes each of its still-open
transactions using that transaction's own start time as its end time
(appending, per such transaction, a zero-duration slice: begin and end both
stamped with the start time), leaves already-closed transactions alone, and
then marks the stream closed; closing an already-closed stream changes
nothing. -/
theorem C4_stream_close_force (s : TraceState) (i : Nat) (st : Stream)
    (hst : s.streams[i]? = some st) (hnd : st.transactions.Nodup)
    (hval : ∀ j ∈ st.transactions, j < s.txns.length) :
    (st.is_open = true →
      (stream_close s i).streams[i]? = some { st with is_open := false } ∧
      (∀ j ∈ st.transactions, ∀ t, s.txns[j]? = some t →
        (stream_close s i).txns[j]? =
          some (if t.is_open then { t with end_time := t.start_time, is_open := false }
                else t)) ∧
      (stream_close s i).packets
        = s.packets ++ (st.transactions.map (close_emits s)).flatten) ∧
    (st.is_open = false → stream_close s i = s) := by
  have hi : i < s.streams.length := (List.getElem?_eq_some.mp hst).1
  constructor
  · intro hop
    have hF := stream_close_fold st.transactions s hnd hval
    have hscl : stream_close s i =
        (st.transactions.foldl stream_close_step s).setStream i
          { st with is_open := false } := by
      unfold stream_close
      simp only [hst, hop, if_true, hF.1]
    rw [hscl]
    refine ⟨?_, ?_, ?_⟩
    · simp [TraceState.setStream, hF.1, List.getElem?_set, hi]
    · intro j hj u hu
      simpa [TraceState.setStream] using hF.2.2.2.1 j hj u hu
    · simpa [TraceState.setStream] using hF.2.2.2.2
  · intro hcl
    simp [stream_close, hst, hcl]

/-- Witness for C4: close the open stream 0 of `wb4` (one open transaction,
force-closed at its start time 10), and re-close the already-closed
stream 1 of `wb5` (a no-op). -/
theorem C4_stream_close_force_witness :
    (stream_close wb4 0).streams[0]? = some { wStream0 with is_open := false } ∧
    (stream_close wb4 0).packets
      = wb4.packets ++ (wStream0.transactions.map (close_emits wb4)).flatten ∧
    stream_close wb5 1 = wb5 := by
  have h := C4_stream_close_force wb4 0 wStream0 (by decide) (by decide) (by decide)
  have h2 := C4_stream_close_force wb5 1 wStream1c (by decide) (by decide) (by decide)
  exact ⟨(h.1 (by decide)).1, (h.1 (by decide)).2.2, h2.2 (by decide)⟩

end DVTT
